import Mathlib

/-!
Shallow embedding of the InnoScout repository (a browser-based innovation
scouting assistant) for checking its natural-language specification.

The embedding covers:
* `src/src/services/geminiService.ts` — `cleanJson`, `isAuthError`,
  `executeGenAI` (auth-retry wrapper), `findStartups` (search + fallback),
  and the prompt construction of `evaluateStartup`;
* `api/gemini-search.ts` — the server-side `cleanJson`, prompt rendering,
  the two-pass search with merge/dedupe, candidate normalization, and the
  HTTP handler;
* `api/mandates.ts` — the in-memory mandate store and its handlers
  (create / update / delete / set-active) as a state machine;
* `src/src/App.tsx` — the local-storage persistence effects for the brief.

External library behaviour (the Gemini SDK's `generateContent`, and
`JSON.parse` at the points where the code inspects its result) is modelled
by oracle functions carried in an environment record; everything written in
the repository itself is translated directly.  JavaScript machine strings
are modelled by Lean `String`; JS `indexOf`-style `-1` sentinels are kept
as `Int` values so the control flow matches the source line by line.
-/

namespace InnoScout

/-! ### JavaScript string primitives used by the repository -/

/-- Case-insensitive character comparison (JS regex `i` flag, ASCII). -/
def lowEq (a b : Char) : Bool := a.toLower = b.toLower

/-- `pat` is a case-insensitive prefix of the list. -/
def isPrefixCI : List Char → List Char → Bool
  | [], _ => true
  | _ :: _, [] => false
  | a :: as, b :: bs => lowEq a b && isPrefixCI as bs

/-- Fuel-indexed deletion of every non-overlapping, leftmost-first,
case-insensitive occurrence of `pat`.  Each step consumes at least one
character, so fuel `s.length` is always enough. -/
def replaceAllCIFuel (pat : List Char) : Nat → List Char → List Char
  | _, [] => []
  | 0, s => s
  | fuel + 1, c :: rest =>
    if isPrefixCI pat (c :: rest) then
      replaceAllCIFuel pat fuel (List.drop (pat.length - 1) rest)
    else
      c :: replaceAllCIFuel pat fuel rest

/-- JS `String.replace(/pat/gi, "")`: delete every non-overlapping,
leftmost-first, case-insensitive occurrence of `pat`.  (For patterns without
letters this coincides with the case-sensitive `/pat/g`.) -/
def replaceAllCI (pat s : List Char) : List Char :=
  replaceAllCIFuel pat s.length s

/-- JS `s.trim()` (ASCII whitespace model): drop whitespace from both ends. -/
def trimChars (l : List Char) : List Char :=
  ((l.dropWhile Char.isWhitespace).reverse.dropWhile Char.isWhitespace).reverse

/-- JS `s.trim()` on strings. -/
def jsTrim (s : String) : String := String.mk (trimChars s.data)

/-- JS `s.toLowerCase()` (ASCII model; `String.toLower` itself does not
reduce in the kernel). -/
def lowerStr (s : String) : String := String.mk (s.data.map Char.toLower)

/-- First index of character `c`, or `none`. -/
def firstIdxChar (c : Char) : List Char → Option Nat
  | [] => none
  | a :: as => if a = c then some 0 else (firstIdxChar c as).map (· + 1)

/-- JS `s.indexOf(c)` (−1 when absent). -/
def jsIndexOfChar (s : String) (c : Char) : Int :=
  match firstIdxChar c s.data with
  | some i => (i : Int)
  | none => -1

/-- JS `s.lastIndexOf(c)` (−1 when absent). -/
def jsLastIndexOfChar (s : String) (c : Char) : Int :=
  match firstIdxChar c s.data.reverse with
  | some i => ((s.data.length - 1 - i : Nat) : Int)
  | none => -1

/-- JS `s.substring(a, b + 1)` for `a ≤ b < s.length`: the characters from
position `a` to position `b` inclusive. -/
def jsSubstringIncl (s : String) (a b : Nat) : String :=
  String.mk ((s.data.take (b + 1)).drop a)

/-- `pat` occurs as a contiguous substring. -/
def listIsSubstr (pat : List Char) : List Char → Bool
  | [] => pat.isEmpty
  | c :: rest => pat.isPrefixOf (c :: rest) || listIsSubstr pat rest

/-- JS `s.includes(pat)`. -/
def strContainsSub (s pat : String) : Bool := listIsSubstr pat.data s.data

/-- JS truthiness for an optional string field: `undefined`, `null` and the
empty string are falsy. -/
def jsFalsyStr (o : Option String) : Bool :=
  match o with
  | none => true
  | some s => s = ""

/-- JS `o || d` for an optional string `o` and default `d`. -/
def truthyOr (o : Option String) (d : String) : String :=
  match o with
  | none => d
  | some s => if s = "" then d else s

/-- JS `s || undefined`: collapse the empty string to `undefined`. -/
def jsOrUndefined (o : Option String) : Option String :=
  match o with
  | none => none
  | some s => if s = "" then none else some s

/-- The string `"{}"` (the `result.text || "{}"` default). -/
def emptyObjText : String := "\x7b\x7d"

/-- JS `t || "{}"`. -/
def jsOrEmptyObj (t : String) : String := if t = "" then emptyObjText else t

/-! ### `cleanJson` — `src/src/services/geminiService.ts` lines 5–33

```js
const cleanJson = (text) => {
  if (!text) return "";
  let cleaned = text.replace(/```json/gi, '').replace(/```/g, '').trim();
  const firstOpenBrace = cleaned.indexOf('{');   ...
```
-/

/-- The fence-stripping prefix of `cleanJson`: delete every occurrence of
"```json" (case-insensitively), then every occurrence of "```", then trim. -/
def stripFences (text : String) : String :=
  jsTrim (String.mk (replaceAllCI ("```".data)
    (replaceAllCI ("```json".data) text.data)))

/-- Front-end `cleanJson` (`src/src/services/geminiService.ts`). -/
def cleanJson (text : String) : String :=
  if text = "" then ""
  else
    let cleaned := stripFences text
    let firstOpenBrace := jsIndexOfChar cleaned '\x7b'
    let firstOpenBracket := jsIndexOfChar cleaned '['
    let lastCloseBrace := jsLastIndexOfChar cleaned '\x7d'
    let lastCloseBracket := jsLastIndexOfChar cleaned ']'
    let p : Int × Int :=
      if firstOpenBrace ≠ -1 ∧ (firstOpenBracket = -1 ∨ firstOpenBrace < firstOpenBracket) then
        (firstOpenBrace, lastCloseBrace)
      else if firstOpenBracket ≠ -1 then
        (firstOpenBracket, lastCloseBracket)
      else
        (-1, -1)
    if p.1 ≠ -1 ∧ p.2 ≠ -1 ∧ p.2 ≥ p.1 then
      jsSubstringIncl cleaned p.1.toNat p.2.toNat
    else
      cleaned

/-- Server-side `cleanJson` (`api/gemini-search.ts` lines 48–63): braces
only, strict `lastBrace > firstBrace`, and a final extra `trim`. -/
def cleanJsonServer (text : String) : String :=
  if text = "" then ""
  else
    let cleaned := stripFences text
    let firstBrace := jsIndexOfChar cleaned '\x7b'
    let lastBrace := jsLastIndexOfChar cleaned '\x7d'
    let cleaned2 :=
      if firstBrace ≠ -1 ∧ lastBrace ≠ -1 ∧ lastBrace > firstBrace then
        jsSubstringIncl cleaned firstBrace.toNat lastBrace.toNat
      else
        cleaned
    jsTrim cleaned2

/-! ### Data model — `src/src/types.ts` -/

/-- `Answer` record. -/
structure Answer where
  questionId : String
  questionText : String
  answerText : String
deriving DecidableEq, Repr

/-- `Question` record. -/
structure Question where
  id : String
  text : String
  category : String
deriving DecidableEq, Repr

/-- `CriteriaScore` record. -/
structure CriteriaScore where
  score : Int
  reasoning : String
deriving DecidableEq, Repr

/-- `EvaluationResult` record. -/
structure EvaluationResult where
  startupName : String
  oneLineSummary : String
  desirability : CriteriaScore
  viability : CriteriaScore
  feasibility : CriteriaScore
  overallScore : Int
  redFlags : List String
  isNoGo : Bool
  sources : Option (List String)
  evaluatedAt : Option String
deriving DecidableEq, Repr

/-- A normalized startup candidate (all fields filled in by the code). -/
structure Startup where
  id : String
  name : String
  url : String
  description : String
deriving DecidableEq, Repr

/-- A startup object as it comes out of `JSON.parse` before normalization:
each of `name` / `url` / `description` may be missing. -/
structure RawCandidate where
  name : Option String
  url : Option String
  description : Option String
deriving DecidableEq, Repr

/-! ### Errors and `isAuthError` — `src/src/services/geminiService.ts` 50–57 -/

/-- A thrown JS error as the code inspects it: an optional `status` and a
`message` string. -/
structure GenError where
  status : Option Nat
  message : String
deriving DecidableEq, Repr

/-- `isAuthError` (lines 50–57). -/
def isAuthError (e : GenError) : Bool :=
  e.status = some 403 ||
  strContainsSub (lowerStr e.message) "api key" ||
  strContainsSub (lowerStr e.message) "permission_denied" ||
  strContainsSub (lowerStr e.message) "leaked" ||
  strContainsSub (lowerStr e.message) "requested entity was not found"

/-- Outcome of one underlying `generateContent` call, supplied by the
environment: the response text, or a thrown error. -/
inductive CallOutcome where
  | ok (text : String)
  | err (e : GenError)
deriving DecidableEq, Repr

/-- Environment for the front-end service: the model-call oracle (indexed by
how many `generateContent` calls have been made so far), whether the AI
Studio key-selection hook exists on `window`, whether `openSelectKey`
succeeds, and the behaviour of `JSON.parse` followed by the array extraction
of `parseCandidates` (lines 163–175) on the cleaned text. -/
structure FrontEnv where
  oracle : Nat → CallOutcome
  aistudioAvailable : Bool
  keySelectOk : Bool
  jparse : String → Except GenError (List RawCandidate)

/-! ### `executeGenAI` — `src/src/services/geminiService.ts` lines 60–88

Returns the operation result, the list of prompts sent to
`generateContent` by this invocation, and the next oracle index.  On an
auth error with the AI Studio hook available it re-runs the *same*
operation once; if the retry also throws, the original error is rethrown. -/

/-- `executeGenAI` wrapper. -/
def executeGenAI (env : FrontEnv) (prompt : String) (n : Nat) :
    Except GenError String × List String × Nat :=
  match env.oracle n with
  | .ok t => (.ok t, [prompt], n + 1)
  | .err e =>
    if isAuthError e && env.aistudioAvailable then
      if env.keySelectOk then
        match env.oracle (n + 1) with
        | .ok t => (.ok t, [prompt, prompt], n + 2)
        | .err _ => (.error e, [prompt, prompt], n + 2)
      else (.error e, [prompt], n + 1)
    else (.error e, [prompt], n + 1)

/-! ### `findStartups` — `src/src/services/geminiService.ts` lines 147–225 -/

/-- The base prompt of `findStartups` (lines 150–161). -/
def findStartupsBasePrompt (query : String) : String :=
  "\n    User Query: \"" ++ query ++ "\"\n\n" ++
  "    Task: Search for startups or technology companies that match this name or description.\n    \n" ++
  "    Instructions:\n" ++
  "    1. **Disambiguate**: If the query is a specific name (e.g., \"Neo\"), look for distinct companies with that name or similar variations (e.g., \"Neo Cyber\", \"Neo Materials\").\n" ++
  "    2. **Digital Footprint**: For each company, prioritize finding their **Official Website**. If not found, find their **LinkedIn Company Page**.\n" ++
  "    3. **Description**: Provide a brief 1-sentence description of their core technology.\n\n" ++
  "    Retrieve up to 5 distinct, real candidates.\n  "

/-- Suffix appended for the initial (search-tool) call, line 188. -/
def findStartupsSearchSuffix : String :=
  "\nOutput strictly as a JSON object with a 'companies' key containing an array of objects (keys: name, url, description)."

/-- Suffix appended for the fallback (internal-knowledge) call, line 210. -/
def findStartupsFallbackSuffix : String :=
  "\n\nImportant: Search is unavailable. Use your internal knowledge. Output strictly as a JSON object with a 'companies' key containing an array of objects (keys: name, url, description)."

/-- Prompt of the initial `findStartups` model call. -/
def findStartupsPromptOne (query : String) : String :=
  findStartupsBasePrompt query ++ findStartupsSearchSuffix

/-- Prompt of the fallback `findStartups` model call. -/
def findStartupsPromptTwo (query : String) : String :=
  findStartupsBasePrompt query ++ findStartupsFallbackSuffix

/-- Generic `(c, idx) => ({ id, name, url, description })` normalization
with JS `||` defaults (frontend lines 176–181, server lines 251–256). -/
def normalizeWith (idStem : String) (idx : Nat) (c : RawCandidate) : Startup :=
  { id := idStem ++ toString idx,
    name := truthyOr c.name "Unknown Name",
    url := truthyOr c.url "",
    description := truthyOr c.description "No description available." }

/-- `List.map` with the element index, starting at `n`. -/
def mapIdxFrom (f : Nat → α → β) (n : Nat) : List α → List β
  | [] => []
  | a :: as => f n a :: mapIdxFrom f (n + 1) as

/-- The mapping step of `parseCandidates` (frontend lines 176–181). -/
def parseCandidatesMap (l : List RawCandidate) : List Startup :=
  mapIdxFrom (normalizeWith "candidate-") 0 l

/-- The `new Error("Empty search result")` thrown at line 197. -/
def emptySearchError : GenError := { status := none, message := "Empty search result" }

/-- The fallback (`catch`) branch of `findStartups`, lines 206–223: one more
`executeGenAI` call with the internal-knowledge prompt; its own failure is
thrown to the caller. -/
def findStartupsFallbackRun (env : FrontEnv) (query : String) (n : Nat) :
    Except GenError (List Startup) × List String :=
  let p2 := findStartupsPromptTwo query
  match executeGenAI env p2 n with
  | (.ok t, _, _) =>
    let jsonText := cleanJson (jsOrEmptyObj t)
    match env.jparse jsonText with
    | .ok list => (.ok (parseCandidatesMap list), [p2])
    | .error e => (.error e, [p2])
  | (.error e, _, _) => (.error e, [p2])

/-- `findStartups` (lines 147–225).  The second component is the list of
prompts passed to `executeGenAI`, one entry per invocation. -/
def findStartups (env : FrontEnv) (query : String) :
    Except GenError (List Startup) × List String :=
  let p1 := findStartupsPromptOne query
  match executeGenAI env p1 0 with
  | (.ok t, _, n1) =>
    let jsonText := cleanJson (jsOrEmptyObj t)
    if jsonText = "" ∨ jsonText = emptyObjText then
      -- `throw new Error("Empty search result")`, caught by the catch block
      if isAuthError emptySearchError then (.error emptySearchError, [p1])
      else
        let r := findStartupsFallbackRun env query n1
        (r.1, p1 :: r.2)
    else
      match env.jparse jsonText with
      | .ok list => (.ok (parseCandidatesMap list), [p1])
      | .error e =>
        -- a JSON.parse error lands in the same catch block
        if isAuthError e then (.error e, [p1])
        else
          let r := findStartupsFallbackRun env query n1
          (r.1, p1 :: r.2)
  | (.error e, _, n1) =>
    if isAuthError e then (.error e, [p1])
    else
      let r := findStartupsFallbackRun env query n1
      (r.1, p1 :: r.2)

/-! ### `evaluateStartup` prompt construction — lines 227–292

Only the prompt strings are needed (for the retry-prompt claim); the
evaluation pipeline itself is not the subject of any claim. -/

/-- JS `s || d` on plain strings. -/
def strOr (s d : String) : String := if s = "" then d else s

/-- `contextString` (line 235). -/
def evalContextString (context : List Answer) : String :=
  String.intercalate "\n---\n"
    (context.map (fun a => "Q: " ++ a.questionText ++ "\nA: " ++ a.answerText))

/-- `refinementString` (lines 236–238). -/
def evalRefinementString (refinementHistory : List String) : String :=
  if refinementHistory.length > 0 then
    "\n\nCRITICAL REFINEMENT RULES FROM USER FEEDBACK (Override standard criteria if conflicting):\n" ++
      String.intercalate "\n" (refinementHistory.map (fun r => "- " ++ r))
  else ""

/-- `instructions` (lines 242–254). -/
def evalInstructions (hasFile : Bool) (name : String) : String :=
  if hasFile then
    "\n    1. Analyze the PROVIDED DOCUMENT content to understand " ++ name ++
    "'s technology, model, and market.\n" ++
    "    2. Supplement with external knowledge ONLY if the document is missing critical context.\n" ++
    "    3. The document is the primary source of truth for Feasibility/Viability.\n    "
  else
    "\n    1. Research " ++ name ++
    " (products, news, team, traction) using available tools or internal knowledge.\n" ++
    "    2. Analyze the startup based on the findings.\n    "

/-- `promptText` (lines 256–292). -/
def evalPromptText (candidate : Startup) (context : List Answer)
    (refinementHistory : List String) (hasFile : Bool) : String :=
  "\n    Role: Expert Open Innovation Manager.\n" ++
  "    Task: Research and Evaluate the startup \"" ++ candidate.name ++
  "\" (URL: " ++ strOr candidate.url "Search for it" ++ ").\n    \n" ++
  "    Context Description: " ++ candidate.description ++ "\n\n" ++
  "    Definitions:\n" ++
  "    - Desirability: Does a market exist? Is the problem urgent? Do customers want this solution?\n" ++
  "    - Viability: Is the business model sound? Does it align with corporate strategy? Is it profitable/sustainable?\n" ++
  "    - Feasibility: Is the technology possible? Is the team capable? Is the IP defensible?\n    \n" ++
  "    User Constraints (The \"Lens\"):\n    " ++ evalContextString context ++ "\n\n    " ++
  evalRefinementString refinementHistory ++ "\n\n    Instructions:\n    " ++
  evalInstructions hasFile candidate.name ++ "\n    \n" ++
  "    4. Analyze the startup against the Context and Definitions.\n" ++
  "    5. Assign a score (1-5) for each criteria (Desirability, Viability, Feasibility).\n" ++
  "    6. Identify RED FLAGS based on the User Constraints (e.g., TRL too low, wrong sector).\n" ++
  "    7. If there is a critical red flag (No-Go), set isNoGo to true.\n\n" ++
  "    Output STRICT JSON.\n    Structure:\n    \x7b\n" ++
  "      \"startupName\": \"" ++ candidate.name ++ "\",\n" ++
  "      \"oneLineSummary\": \"...\",\n" ++
  "      \"desirability\": \x7b \"score\": number, \"reasoning\": \"...\" \x7d,\n" ++
  "      \"viability\": \x7b \"score\": number, \"reasoning\": \"...\" \x7d,\n" ++
  "      \"feasibility\": \x7b \"score\": number, \"reasoning\": \"...\" \x7d,\n" ++
  "      \"overallScore\": number,\n" ++
  "      \"redFlags\": [\"flag1\", ...],\n" ++
  "      \"isNoGo\": boolean\n    \x7d\n  "

/-- Suffix appended to `promptText` for the evaluation fallback call
(line 334). -/
def evalFallbackSuffix : String :=
  "\n\nProvide the evaluation based on internal knowledge."

/-! ### `api/gemini-search.ts` — server-side two-pass search -/

/-- JS `s.replace(pat, repl)` with a *string* pattern: replace only the
first occurrence. -/
def replaceFirstList (pat repl : List Char) : List Char → List Char
  | [] => []
  | c :: rest =>
    if pat.isPrefixOf (c :: rest) then repl ++ List.drop pat.length (c :: rest)
    else c :: replaceFirstList pat repl rest

/-- JS `s.replace(pat, repl)` on strings (first occurrence only). -/
def jsReplaceFirst (s pat repl : String) : String :=
  String.mk (replaceFirstList pat.data repl.data s.data)

/-- The `basePrompt` template literal of `api/gemini-search.ts`
(lines 89–184), with its `__QUERY__` / `__CONTEXT__` placeholders. -/
def gsBasePrompt : String :=
  "\nYou are a startup research assistant. Your ONLY task is to identify real startups or technology companies that match the user query.\n\n" ++
  "User Query: \"__QUERY__\"\n__CONTEXT__\n\n" ++
  "PRIMARY GOAL:\nReturn a SHORTLIST of real companies so the user can choose the correct one,\nespecially when there are multiple startups with similar or confusing names.\n\n" ++
  "ABSOLUTE RULES:\n\n" ++
  "1. TREAT THE QUERY AS A NAME\n" ++
  "   - Assume the query is primarily a startup / company / product NAME (e.g., \"Symbiobe\", \"CropMind\", \"Neo\", \"Lumen\").\n" ++
  "   - Do NOT treat it as evaluation criteria or a long description.\n\n" ++
  "2. ALWAYS TRY TO RETURN 2–5 CANDIDATES\n" ++
  "   - Your default behavior should be to return BETWEEN 2 AND 5 candidates.\n" ++
  "   - Include:\n" ++
  "     - The best exact match (if one exists).\n" ++
  "     - Close alternatives:\n" ++
  "       - Slight spelling variations or typos.\n" ++
  "       - Different suffixes: Labs, AI, Systems, Technologies, Biosciences, Therapeutics, etc.\n" ++
  "       - Different domain endings: .com, .ai, .io, .bio, .tech, etc.\n" ++
  "   - Only return exactly 1 startup if you are strongly convinced there is truly only one realistic match worldwide.\n\n" ++
  "3. DIGITAL FOOTPRINT REQUIREMENT\n" ++
  "   For EACH candidate you include:\n" ++
  "   - Verify that it has a visible digital footprint:\n" ++
  "     - Official website with a plausible domain for that name, OR\n" ++
  "     - A Crunchbase / PitchBook / AngelList profile, OR\n" ++
  "     - A LinkedIn company page, OR\n" ++
  "     - A startup/accelerator/directory listing.\n" ++
  "   - If you cannot find ANY digital footprint, DO NOT include that candidate.\n\n" ++
  "4. SOURCES TO USE (MENTALLY)\n" ++
  "   - Official websites (preferred).\n" ++
  "   - Crunchbase and PitchBook.\n" ++
  "   - AngelList and well-known startup directories.\n" ++
  "   - Accelerator portfolios (YC, Techstars, etc.).\n" ++
  "   - LinkedIn company pages.\n\n" ++
  "5. NO INVENTED COMPANIES\n" ++
  "   - Do NOT hallucinate fictional startups.\n" ++
  "   - If you are not reasonably sure a company exists, do not include it.\n\n" ++
  "6. OUTPUT FORMAT (STRICT JSON)\n" ++
  "Output ONLY JSON in this shape, with NO extra commentary:\n\n" ++
  "\x7b\n  \"startups\": [\n    \x7b\n      \"name\": \"Company name\",\n      \"url\": \"https://official-website-or-main-profile\",\n      \"description\": \"One sentence describing their core technology or product.\"\n    \x7d\n  ]\n\x7d\n\n\n" ++
  "STRUCTURE EXAMPLE (NOT REAL DATA):\n\n" ++
  "\x7b\n  \"startups\": [\n    \x7b\n      \"name\": \"Symbiobe\",\n      \"url\": \"https://symbiobe.com/\",\n      \"description\": \"Microbiome-focused biotech company working on symbiotic solutions.\"\n    \x7d,\n    \x7b\n      \"name\": \"Symbiome\",\n      \"url\": \"https://symbiome.com/\",\n      \"description\": \"Skincare and health brand using microbiome science.\"\n    \x7d,\n    \x7b\n      \"name\": \"SymBio Labs\",\n      \"url\": \"https://symbiolabs.com/\",\n      \"description\": \"Biotech company providing symbiotic biological products.\"\n    \x7d\n  ]\n\x7d\n\n" ++
  "CONSTRAINTS:\n" ++
  "- Return 2–5 startups whenever possible.\n" ++
  "- Prefer: [1 best exact match + 1–4 close alternatives].\n" ++
  "- If nothing reasonable is found at all, return: \x7b \"startups\": [] \x7d.\n\n" ++
  "ADDITIONAL HELP FOR TRICKY NAMES:\n" ++
  "- FIRST try to find an exact-name match (case-insensitive) for the query.\n" ++
  "- If you cannot find an exact match, TRY THESE STRATEGIES:\n" ++
  "  1) Try common domain suffixes for the name: .com, .io, .ai, .co, .tech, .jp (e.g., \"Symbiobe.com\", \"Symbiobe.jp\").\n" ++
  "  2) Try common company suffixes: \"Labs\", \"Technologies\", \"AI\", \"Systems\", \"Solutions\".\n" ++
  "  3) Try minor spelling variants (single-letter swaps or common typos).\n" ++
  "- Only include companies you are reasonably confident exist (visible website/profile).\n" ++
  "- Prefer official website URLs when available.\n"

/-- The `meta` argument of `findStartupsWithGemini`. -/
structure MetaInfo where
  market : Option String
  stage : Option String
  region : Option String
deriving DecidableEq, Repr

/-- `renderPrompt` (lines 187–195): prepend the optional context / meta
pieces and substitute the query. -/
def renderPrompt (q : String) (c : Option String) (m : MetaInfo) : String :=
  let pieces : List String :=
    (if jsFalsyStr c then [] else ["Context/Hint: \"" ++ c.getD "" ++ "\""]) ++
    (if jsFalsyStr m.market then [] else ["Market: " ++ m.market.getD ""]) ++
    (if jsFalsyStr m.stage then [] else ["Stage: " ++ m.stage.getD ""]) ++
    (if jsFalsyStr m.region then [] else ["Region: " ++ m.region.getD ""])
  let contextPrompt :=
    if pieces.length > 0 then String.intercalate " | " pieces ++ "\n\n" else ""
  contextPrompt ++ jsReplaceFirst gsBasePrompt "__QUERY__" q

/-- The retry-pass suffix appended to the rendered prompt (lines 226–228). -/
def gsRetrySuffix : String :=
  "\n\nRETRY: If you did not find an exact-name match, now explicitly try the domain and name-variant strategies listed above and return up to 5 best candidates."

/-- Result of `JSON.parse` on a cleaned response, as the code inspects it:
the `startups` field is `some` when it is an array. -/
structure GSParsed where
  startups : Option (List RawCandidate)
deriving DecidableEq, Repr

/-- Environment of the server search: whether `GEMINI_API_KEY` is set, the
`generateContent` oracle, and `JSON.parse` behaviour (`none` = throws). -/
structure GSEnv where
  apiKeyPresent : Bool
  oracle : Nat → CallOutcome
  jparse : String → Option GSParsed

/-- The error thrown by `getApiKey` when `GEMINI_API_KEY` is unset. -/
def gsApiKeyError : GenError :=
  { status := none,
    message := "GEMINI_API_KEY is not set. Define it in .env.local and in Vercel project settings." }

/-- `callGemini` (lines 197–206): one model call, response text cleaned. -/
def callGemini (env : GSEnv) (_p : String) (n : Nat) : Except GenError String × Nat :=
  match env.oracle n with
  | .ok raw => (.ok (cleanJsonServer (jsOrEmptyObj raw)), n + 1)
  | .err e => (.error e, n + 1)

/-- `hasExact` (lines 221–224). -/
def gsHasExact (query : String) (list : List RawCandidate) : Bool :=
  list.any (fun c =>
    match c.name with
    | some nm => lowerStr (jsTrim nm) = lowerStr (jsTrim query)
    | none => false)

/-- The dedupe key `(c.url || c.name || "").toLowerCase()` (line 238). -/
def jsKey (c : RawCandidate) : String :=
  lowerStr (truthyOr c.url (truthyOr c.name ""))

/-- The merge filter of the retry pass (lines 236–243): walk the merged
list, drop empty keys and already-seen keys. -/
def dedupeByKey : List RawCandidate → List String → List RawCandidate
  | [], _ => []
  | c :: rest, seen =>
    let k := jsKey c
    if k = "" then dedupeByKey rest seen
    else if seen.contains k then dedupeByKey rest seen
    else c :: dedupeByKey rest (k :: seen)

/-- The raw-candidate core of `findStartupsWithGemini` (lines 209–249):
returns the final pre-normalization list, the `hasExact` flag, whether the
retry merge was applied (retry ran *and* its JSON parsed), and the list of
prompts sent. -/
def gsFinalRaw (env : GSEnv) (query : String) (context : Option String) (m : MetaInfo) :
    Except GenError (List RawCandidate × Bool × Bool) × List String :=
  if ¬ env.apiKeyPresent then (.error gsApiKeyError, [])
  else
    let p1 := renderPrompt query context m
    match callGemini env p1 0 with
    | (.error e, _) => (.error e, [p1])
    | (.ok firstJson, n1) =>
      let parsed : GSParsed := (env.jparse firstJson).getD { startups := some [] }
      let list := parsed.startups.getD []
      if gsHasExact query list then (.ok (list, true, false), [p1])
      else
        let p2 := p1 ++ gsRetrySuffix
        match callGemini env p2 n1 with
        | (.error e, _) => (.error e, [p1, p2])
        | (.ok retryJson, _) =>
          match env.jparse retryJson with
          | none => (.ok (list, false, false), [p1, p2])
          | some rp =>
            let retryList := rp.startups.getD []
            (.ok (dedupeByKey (retryList ++ list) [], false, true), [p1, p2])

/-- The normalization `list.map((c, idx) => ...)` (lines 251–256). -/
def normalizeStartups (l : List RawCandidate) : List Startup :=
  mapIdxFrom (normalizeWith "gemini-") 0 l

/-- One example of the static help payload (lines 259–265). -/
structure HelpExample where
  input : String
  result : String
deriving DecidableEq, Repr

/-- The help metadata returned with every successful search (lines 292–304). -/
structure HelpPayload where
  alwaysVisible : Bool
  displayAsTooltip : Bool
  infoToggleLabel : String
  examples : List HelpExample
  proTips : List String
  whyThisWorked : String
  mandateEffect : String
deriving DecidableEq, Repr

/-- The static `examples` list (lines 259–265). -/
def gsExamples : List HelpExample :=
  [ { input := "Neo + biotech", result := "Finds Neo Biotech (company), not gaming platforms." },
    { input := "Lumen + metabolic health", result := "Finds Lumen Health (metabolic health startup), not lighting companies." },
    { input := "Symbiobe + microbiome", result := "Finds microbiome-focused Symbiobe, not unrelated brands." },
    { input := "CropMind + agriculture", result := "Finds agri-tech CropMind, not unrelated software." } ]

/-- The static `proTips` list (lines 267–271). -/
def gsProTips : List String :=
  [ "Use short context words (industry, tech, location) to narrow ambiguous names.",
    "If a name is ambiguous, try adding \"company\", \"labs\", or a location (e.g., \"Berlin\").",
    "The system prefers official websites or well-known profiles when picking candidates." ]

/-- `metaParts` (lines 273–276). -/
def gsMetaParts (m : MetaInfo) : List String :=
  (if jsFalsyStr m.market then [] else ["market: " ++ m.market.getD ""]) ++
  (if jsFalsyStr m.stage then [] else ["stage: " ++ m.stage.getD ""]) ++
  (if jsFalsyStr m.region then [] else ["region: " ++ m.region.getD ""])

/-- `mandateEffect` (lines 278–284). -/
def gsMandateEffect (context : Option String) (m : MetaInfo) : String :=
  let parts : List String :=
    (if jsFalsyStr context then []
     else ["Context \"" ++ context.getD "" ++ "\" was used to bias results toward that industry/setting."]) ++
    (if (gsMetaParts m).length > 0 then
      ["Additional filters applied (" ++ String.intercalate ", " (gsMetaParts m) ++ ")."]
     else [])
  strOr (String.intercalate " " parts)
    "No extra context provided — results favor best name matches and domain/name variants."

/-- `whyThisWorked` (lines 286–290). -/
def gsWhyThisWorked (query : String) (context : Option String) (m : MetaInfo)
    (hasExact : Bool) (numStartups : Nat) : String :=
  if hasExact then
    "An exact-name match was found for \"" ++ query ++ "\". Context was used to disambiguate nearby matches."
  else if numStartups > 0 then
    "No exact-name match for \"" ++ query ++ "\". The search tried domain and name-variant strategies (common suffixes and domain endings) and returned likely candidates. " ++
    (if jsFalsyStr context then "" else "Context \"" ++ context.getD "" ++ "\" guided the results.") ++ " " ++
    (if (gsMetaParts m).length > 0 then
      "Filters (" ++ String.intercalate ", " (gsMetaParts m) ++ ") were applied."
     else "")
  else
    "No reasonable candidates found for \"" ++ query ++ "\". Try adding context (industry, location, or \"company\") or structured filters (market/stage/region) to improve results."

/-- Assemble the help payload (lines 292–304). -/
def buildHelp (query : String) (context : Option String) (m : MetaInfo)
    (hasExact : Bool) (numStartups : Nat) : HelpPayload :=
  { alwaysVisible := true,
    displayAsTooltip := true,
    infoToggleLabel := "Search Tips (ℹ️)",
    examples := gsExamples,
    proTips := gsProTips,
    whyThisWorked := gsWhyThisWorked query context m hasExact numStartups,
    mandateEffect := gsMandateEffect context m }

/-- `findStartupsWithGemini` (lines 75–306): normalized startups plus help
payload, together with the prompt trace. -/
def findStartupsWithGemini (env : GSEnv) (query : String) (context : Option String)
    (m : MetaInfo) : Except GenError (List Startup × HelpPayload) × List String :=
  match gsFinalRaw env query context m with
  | (.error e, tr) => (.error e, tr)
  | (.ok (list, hasExact, _), tr) =>
    let startups := normalizeStartups list
    (.ok (startups, buildHelp query context m hasExact startups.length), tr)

/-- The request body of `/api/gemini-search`. -/
structure GSBody where
  query : Option String
  context : Option String
  market : Option String
  stage : Option String
  region : Option String
deriving DecidableEq, Repr

/-- Response body of the `/api/gemini-search` handler. -/
inductive GSRespBody where
  | errMsg (error : String)
  | payload (startups : List Startup) (help : HelpPayload)
deriving DecidableEq, Repr

/-- An HTTP response of the `/api/gemini-search` handler. -/
structure GSResp where
  status : Nat
  body : GSRespBody
deriving DecidableEq, Repr

/-- The `/api/gemini-search` handler (lines 308–334).  Also returns the
prompt trace (empty when no model call is made). -/
def gsHandler (env : GSEnv) (method : String) (body : GSBody) : GSResp × List String :=
  if method ≠ "POST" then ({ status := 405, body := .errMsg "Method not allowed" }, [])
  else
    let badQuery :=
      match body.query with
      | none => true
      | some q => q = "" || jsTrim q = ""
    if badQuery then
      ({ status := 400, body := .errMsg "Missing 'query' in request body" }, [])
    else
      let q := body.query.getD ""
      match findStartupsWithGemini env q body.context
          { market := body.market, stage := body.stage, region := body.region } with
      | (.ok (startups, help), tr) => ({ status := 200, body := .payload startups help }, tr)
      | (.error e, tr) =>
        ({ status := 500, body := .errMsg (strOr e.message "Internal server error") }, tr)

/-! ### `src/src/App.tsx` — local-storage persistence of the brief

`localStorage` holds `JSON.stringify` of the brief record; stringify
followed by parse is the identity on these plain records, so the store is
modelled as an `Option Brief` directly. -/

/-- The `phase` field of `AppState`. -/
inductive Phase where
  | onboarding
  | clarification
  | evaluation
deriving DecidableEq, Repr

/-- `AppState` (`src/src/types.ts`). -/
structure AppState where
  phase : Phase
  innovationTopic : String
  clarificationQuestions : List Question
  clarificationAnswers : List Answer
  evaluations : List EvaluationResult
  refinementRules : List String
deriving DecidableEq, Repr

/-- The initial `useState` value of `App` (lines 10–17). -/
def initialAppState : AppState :=
  { phase := .onboarding, innovationTopic := "", clarificationQuestions := [],
    clarificationAnswers := [], evaluations := [], refinementRules := [] }

/-- The brief record written to `localStorage` (lines 53–57): exactly the
three fields `innovationTopic`, `clarificationAnswers`, `refinementRules`. -/
structure Brief where
  innovationTopic : String
  clarificationAnswers : List Answer
  refinementRules : List String
deriving DecidableEq, Repr

/-- The save effect (lines 51–60): write the brief whenever the phase is
`evaluation`; otherwise leave the stored value alone. -/
def saveBriefEffect (s : AppState) (store : Option Brief) : Option Brief :=
  if s.phase = .evaluation then
    some { innovationTopic := s.innovationTopic,
           clarificationAnswers := s.clarificationAnswers,
           refinementRules := s.refinementRules }
  else store

/-- The load effect on mount (lines 30–48): restore topic, answers and
rules and enter the evaluation phase when the saved topic is truthy and the
saved answers list is non-empty.  (`parsed.refinementRules || []` only
defaults when the field is missing; a brief written by the save effect
always has it.) -/
def loadBriefEffect (store : Option Brief) (s : AppState) : AppState :=
  match store with
  | none => s
  | some b =>
    if b.innovationTopic ≠ "" ∧ b.clarificationAnswers.length > 0 then
      { s with phase := .evaluation,
               innovationTopic := b.innovationTopic,
               clarificationAnswers := b.clarificationAnswers,
               refinementRules := b.refinementRules }
    else s

/-- The state update of `handleSelectStartup` / `handleAction` on a
successful evaluation (lines 138–141 and 193–196):
`evaluations: [result, ...prev.evaluations]`. -/
def addEvaluation (s : AppState) (r : EvaluationResult) : AppState :=
  { s with evaluations := r :: s.evaluations }

/-! ### `api/mandates.ts` — in-memory mandate store -/

/-- `Mandate` record (ids and timestamps are opaque strings). -/
structure Mandate where
  id : String
  name : String
  innovationTopic : String
  clarificationAnswers : List Answer
  refinementRules : List String
  market : Option String
  stage : Option String
  region : Option String
  createdAt : String
  updatedAt : String
deriving DecidableEq, Repr

/-- Request body of `POST /api/mandates`. -/
structure CreateBody where
  name : Option String
  innovationTopic : Option String
  clarificationAnswers : Option (List Answer)
  market : Option String
  stage : Option String
  region : Option String
  setAsActive : Bool
deriving DecidableEq, Repr

/-- Request body of `PATCH /api/mandates/:id`. -/
structure UpdateBody where
  name : Option String
  innovationTopic : Option String
  clarificationAnswers : Option (List Answer)
  refinementRules : Option (List String)
  market : Option String
  stage : Option String
  region : Option String
deriving DecidableEq, Repr

/-- The module-level mutable state (`mandatesStore`, `activeMandateId`,
lines 5–6). -/
structure MState where
  store : List Mandate
  active : Option String
deriving DecidableEq, Repr

/-- The initial server state: empty store, no active mandate. -/
def mInit : MState := { store := [], active := none }

/-- JSON body of a mandate-endpoint response. -/
inductive MRespBody where
  | errText (error : String)
  | mandateBody (m : Mandate)
  | successBody (activeMandateId : Option String)
deriving DecidableEq, Repr

/-- An HTTP response of a mandate handler. -/
structure MResp where
  status : Nat
  body : MRespBody
deriving DecidableEq, Repr

/-- JS `Array.prototype.find`: the first element satisfying `p`. -/
def firstMatch (p : α → Bool) : List α → Option α
  | [] => none
  | a :: as => if p a then some a else firstMatch p as

/-- JS `Array.prototype.findIndex` (as an `Option Nat`). -/
def findIdxJS (p : α → Bool) : List α → Option Nat
  | [] => none
  | a :: as => if p a then some 0 else (findIdxJS p as).map (· + 1)

/-- JS `arr.splice(idx, 1)`: remove the element at position `idx`. -/
def spliceOne : List α → Nat → List α
  | [], _ => []
  | _ :: rest, 0 => rest
  | a :: rest, n + 1 => a :: spliceOne rest n

/-- In-place mutation of the first element satisfying `p` (the effect of
mutating the object returned by `find`). -/
def mutateFirst (p : α → Bool) (f : α → α) : List α → List α
  | [] => []
  | a :: as => if p a then f a :: as else a :: mutateFirst p f as

/-- The mandate record built by `handleCreate` (lines 37–48). -/
def mkMandate (b : CreateBody) (newId now : String) : Mandate :=
  { id := newId,
    name := b.name.getD "",
    innovationTopic := b.innovationTopic.getD "",
    clarificationAnswers := b.clarificationAnswers.getD [],
    refinementRules := [],
    market := jsOrUndefined b.market,
    stage := jsOrUndefined b.stage,
    region := jsOrUndefined b.region,
    createdAt := now,
    updatedAt := now }

/-- `handleCreate` (lines 29–58). -/
def handleCreate (st : MState) (b : CreateBody) (newId now : String) : MState × MResp :=
  if jsFalsyStr b.innovationTopic || jsFalsyStr b.name then
    (st, { status := 400, body := .errText "innovationTopic and name are required" })
  else
    let m := mkMandate b newId now
    let store2 := st.store ++ [m]
    let active2 := if b.setAsActive ∨ store2.length = 1 then some m.id else st.active
    ({ store := store2, active := active2 }, { status := 201, body := .mandateBody m })

/-- The field-by-field `if (x) mandate.x = x` update of `handleUpdate`
(lines 73–81). -/
def applyUpdate (b : UpdateBody) (now : String) (m : Mandate) : Mandate :=
  { m with
    name := match b.name with
      | some s => if s = "" then m.name else s
      | none => m.name,
    innovationTopic := match b.innovationTopic with
      | some s => if s = "" then m.innovationTopic else s
      | none => m.innovationTopic,
    clarificationAnswers := match b.clarificationAnswers with
      | some l => l
      | none => m.clarificationAnswers,
    refinementRules := match b.refinementRules with
      | some l => l
      | none => m.refinementRules,
    market := match b.market with
      | some s => if s = "" then m.market else some s
      | none => m.market,
    stage := match b.stage with
      | some s => if s = "" then m.stage else some s
      | none => m.stage,
    region := match b.region with
      | some s => if s = "" then m.region else some s
      | none => m.region,
    updatedAt := now }

/-- `handleUpdate` (lines 63–85). -/
def handleUpdate (st : MState) (id : String) (b : UpdateBody) (now : String) :
    MState × MResp :=
  match firstMatch (fun m => m.id == id) st.store with
  | none => (st, { status := 404, body := .errText "Mandate not found" })
  | some m =>
    ({ store := mutateFirst (fun m => m.id == id) (applyUpdate b now) st.store,
       active := st.active },
     { status := 200, body := .mandateBody (applyUpdate b now m) })

/-- `handleDelete` (lines 90–108). -/
def handleDelete (st : MState) (id : String) : MState × MResp :=
  match findIdxJS (fun m => m.id == id) st.store with
  | none => (st, { status := 404, body := .errText "Mandate not found" })
  | some idx =>
    let store2 := spliceOne st.store idx
    let active2 :=
      if st.active = some id then
        match store2.head? with
        | some m0 => some m0.id
        | none => none
      else st.active
    ({ store := store2, active := active2 },
     { status := 200, body := .successBody active2 })

/-- `handleSetActive` (lines 113–126). -/
def handleSetActive (st : MState) (mandateId : String) : MState × MResp :=
  match firstMatch (fun m => m.id == mandateId) st.store with
  | none => (st, { status := 404, body := .errText "Mandate not found" })
  | some _ =>
    ({ store := st.store, active := some mandateId },
     { status := 200, body := .successBody (some mandateId) })

/-- One mandate-handler operation. -/
inductive MOp where
  | create (b : CreateBody) (newId now : String)
  | update (id : String) (b : UpdateBody) (now : String)
  | del (id : String)
  | setActive (mandateId : String)

/-- Dispatch one operation against the state. -/
def mStep (st : MState) : MOp → MState × MResp
  | .create b newId now => handleCreate st b newId now
  | .update id b now => handleUpdate st id b now
  | .del id => handleDelete st id
  | .setActive mid => handleSetActive st mid

/-- Run a sequence of operations from the initial state. -/
def mRun (ops : List MOp) : MState :=
  ops.foldl (fun st op => (mStep st op).1) mInit

/-- The active-mandate invariant of the store. -/
def mInv (st : MState) : Prop :=
  (st.active = none ↔ st.store = []) ∧
  ∀ i, st.active = some i → i ∈ st.store.map Mandate.id

/-! ### Concrete fixtures used to instantiate the theorems -/

/-- A non-auth network error. -/
def eNet : GenError := { status := none, message := "network down" }

/-- A second non-auth error, for the fallback call. -/
def eNet2 : GenError := { status := none, message := "still down" }

/-- An authentication error (`status: 403`). -/
def eAuth403 : GenError := { status := some 403, message := "PERMISSION_DENIED" }

/-- Front-end environment where both model calls fail with non-auth errors. -/
def feTwoFail : FrontEnv :=
  { oracle := fun n => if n = 0 then .err eNet else .err eNet2,
    aistudioAvailable := false, keySelectOk := false,
    jparse := fun _ => .ok [] }

/-- Front-end environment where every model call fails with an auth error
and no AI Studio hook is available. -/
def feAuthEnv : FrontEnv :=
  { oracle := fun _ => .err eAuth403,
    aistudioAvailable := false, keySelectOk := false,
    jparse := fun _ => .ok [] }

/-- Front-end environment where every model call returns empty text. -/
def feEmptyEnv : FrontEnv :=
  { oracle := fun _ => .ok "",
    aistudioAvailable := false, keySelectOk := false,
    jparse := fun _ => .ok [] }

/-- Front-end environment where every call fails with an auth error *and*
the AI Studio key-selection hook is available, so `executeGenAI` retries. -/
def feAuthRetryEnv : FrontEnv :=
  { oracle := fun _ => .err eAuth403,
    aistudioAvailable := true, keySelectOk := true,
    jparse := fun _ => .ok [] }

/-- A raw candidate with full fields (no exact-name match for query "q"). -/
def rawAlpha : RawCandidate :=
  { name := some "Alpha Robotics", url := some "https://alpha.example", description := some "desc A" }

/-- A raw candidate keyed by its name. -/
def rawBeta : RawCandidate := { name := some "Beta", url := none, description := none }

/-- A duplicate of `rawBeta` up to case (same dedupe key). -/
def rawBetaDup : RawCandidate := { name := some "BETA", url := none, description := some "dup" }

/-- A raw candidate with neither url nor name. -/
def rawNoKey : RawCandidate := { name := none, url := none, description := none }

/-- Server environment whose first pass returns `[rawAlpha]` and whose
retry pass returns `[rawBeta, rawBetaDup, rawNoKey]`, exercising the merge. -/
def gsEnvMerge : GSEnv :=
  { apiKeyPresent := true,
    oracle := fun n => if n = 0 then .ok "first" else .ok "second",
    jparse := fun s =>
      if s = "first" then some { startups := some [rawAlpha] }
      else if s = "second" then some { startups := some [rawBeta, rawBetaDup, rawNoKey] }
      else none }

/-- Server environment with `GEMINI_API_KEY` unset. -/
def gsEnvNoKey : GSEnv :=
  { apiKeyPresent := false, oracle := fun _ => .ok "", jparse := fun _ => none }

/-- The empty meta argument. -/
def mEmptyMeta : MetaInfo := { market := none, stage := none, region := none }

/-- A search body with query "q". -/
def gsBodyQ : GSBody :=
  { query := some "q", context := none, market := none, stage := none, region := none }

/-- A search body with a whitespace-only query. -/
def gsBodyBlank : GSBody :=
  { query := some "   ", context := none, market := none, stage := none, region := none }

/-- A sample answer record. -/
def ansA : Answer := { questionId := "1", questionText := "What TRL?", answerText := "TRL 7+" }

/-- A valid create body. -/
def cbValid : CreateBody :=
  { name := some "Mandate A", innovationTopic := some "carbon capture",
    clarificationAnswers := none, market := none, stage := none, region := none,
    setAsActive := false }

/-- A create body whose `name` is present but empty. -/
def cbEmptyName : CreateBody :=
  { name := some "", innovationTopic := some "carbon capture",
    clarificationAnswers := none, market := none, stage := none, region := none,
    setAsActive := false }

/-- An update body with no fields. -/
def ubEmpty : UpdateBody :=
  { name := none, innovationTopic := none, clarificationAnswers := none,
    refinementRules := none, market := none, stage := none, region := none }

/-- An app state in the evaluation phase with a saved-worthy brief. -/
def sEval : AppState :=
  { phase := .evaluation, innovationTopic := "carbon capture",
    clarificationQuestions := [], clarificationAnswers := [ansA],
    evaluations := [], refinementRules := ["avoid hardware"] }

/-- A sample evaluation result. -/
def evalSample : EvaluationResult :=
  { startupName := "Acme", oneLineSummary := "One-liner",
    desirability := { score := 4, reasoning := "ok" },
    viability := { score := 3, reasoning := "fine" },
    feasibility := { score := 5, reasoning := "strong" },
    overallScore := 4, redFlags := [], isNoGo := false,
    sources := none, evaluatedAt := none }

/-! ## Theorems -/

/-- Claim C3: reloading after a save in the evaluation phase restores
`innovationTopic`, `clarificationAnswers` and `refinementRules` exactly and
re-enters the evaluation phase, provided the saved topic is non-empty and
the saved answers list is non-empty — save followed by load is the identity
on these three fields. -/
theorem c3_brief_roundtrip (s : AppState) (store : Option Brief) (init : AppState)
    (hphase : s.phase = Phase.evaluation)
    (htopic : s.innovationTopic ≠ "")
    (hans : s.clarificationAnswers ≠ []) :
    (loadBriefEffect (saveBriefEffect s store) init).phase = Phase.evaluation ∧
    (loadBriefEffect (saveBriefEffect s store) init).innovationTopic = s.innovationTopic ∧
    (loadBriefEffect (saveBriefEffect s store) init).clarificationAnswers = s.clarificationAnswers ∧
    (loadBriefEffect (saveBriefEffect s store) init).refinementRules = s.refinementRules := by
  have hsave : saveBriefEffect s store =
      some { innovationTopic := s.innovationTopic,
             clarificationAnswers := s.clarificationAnswers,
             refinementRules := s.refinementRules } := by
    simp [saveBriefEffect, hphase]
  have hlen : s.clarificationAnswers.length > 0 := List.length_pos.mpr hans
  rw [hsave]
  simp [loadBriefEffect, htopic, hlen]

/-- Witness for C3 at a concrete evaluation-phase state. -/
theorem c3_brief_roundtrip_witness :
    (loadBriefEffect (saveBriefEffect sEval none) initialAppState).phase = Phase.evaluation ∧
    (loadBriefEffect (saveBriefEffect sEval none) initialAppState).innovationTopic = "carbon capture" := by
  have h := c3_brief_roundtrip sEval none initialAppState (by decide) (by decide) (by decide)
  exact ⟨h.1, h.2.1⟩

/-- Claim C7 (amended): evaluation records are *not* persisted.  The brief
written to local storage is unchanged by adding an evaluation to the app
state; only topic, answers and refinement rules are stored. -/
theorem c7_evaluations_not_persisted (s : AppState) (r : EvaluationResult)
    (store : Option Brief) :
    saveBriefEffect (addEvaluation s r) store = saveBriefEffect s store := by
  simp [saveBriefEffect, addEvaluation]

/-- Counterexample to claim C7 as stated: at a concrete state, adding a
completed evaluation leaves the stored brief bit-for-bit identical, and a
reload from that brief restores *no* evaluations — so the brief in local
storage does not contain the evaluation record. -/
theorem c7_counterexample :
    (addEvaluation sEval evalSample).evaluations = [evalSample] ∧
    saveBriefEffect (addEvaluation sEval evalSample) none = saveBriefEffect sEval none ∧
    (loadBriefEffect (saveBriefEffect (addEvaluation sEval evalSample) none)
      initialAppState).evaluations = [] := by
  refine ⟨rfl, rfl, ?_⟩
  decide

/-! ### Mandate-store lemmas -/

theorem firstMatch_eq_none_of {p : α → Bool} {l : List α}
    (h : ∀ a ∈ l, p a = false) : firstMatch p l = none := by
  induction l with
  | nil => rfl
  | cons a as ih =>
    simp only [firstMatch]
    rw [if_neg]
    · exact ih fun b hb => h b (List.mem_cons_of_mem a hb)
    · simp [h a (List.mem_cons_self a as)]

theorem firstMatch_some {p : α → Bool} {l : List α} {a : α}
    (h : firstMatch p l = some a) : a ∈ l ∧ p a = true := by
  induction l with
  | nil => simp [firstMatch] at h
  | cons b bs ih =>
    simp only [firstMatch] at h
    by_cases hb : p b
    · rw [if_pos hb] at h
      obtain rfl := Option.some_injective _ h
      exact ⟨List.mem_cons_self _ _, hb⟩
    · rw [if_neg hb] at h
      obtain ⟨hm, hp⟩ := ih h
      exact ⟨List.mem_cons_of_mem b hm, hp⟩

theorem findIdxJS_eq_none_of {p : α → Bool} {l : List α}
    (h : ∀ a ∈ l, p a = false) : findIdxJS p l = none := by
  induction l with
  | nil => rfl
  | cons a as ih =>
    simp only [findIdxJS]
    rw [if_neg]
    · rw [ih fun b hb => h b (List.mem_cons_of_mem a hb)]
      rfl
    · simp [h a (List.mem_cons_self a as)]

theorem notMem_firstMatch_id {l : List Mandate} {id : String}
    (h : id ∉ l.map Mandate.id) : firstMatch (fun m => m.id == id) l = none := by
  apply firstMatch_eq_none_of
  intro a ha
  simp only [beq_eq_false_iff_ne, ne_eq]
  intro he
  exact h (List.mem_map.mpr ⟨a, ha, he⟩)

theorem notMem_findIdxJS_id {l : List Mandate} {id : String}
    (h : id ∉ l.map Mandate.id) : findIdxJS (fun m => m.id == id) l = none := by
  apply findIdxJS_eq_none_of
  intro a ha
  simp only [beq_eq_false_iff_ne, ne_eq]
  intro he
  exact h (List.mem_map.mpr ⟨a, ha, he⟩)

/-- Claim C9: `handleUpdate`, `handleDelete` and `handleSetActive` each
respond 404 "Mandate not found" for an id matching no stored mandate, and
leave the whole state (store and active id) unchanged. -/
theorem c9_not_found_handlers (st : MState) (id : String) (b : UpdateBody) (now : String)
    (h : id ∉ st.store.map Mandate.id) :
    handleUpdate st id b now = (st, { status := 404, body := .errText "Mandate not found" }) ∧
    handleDelete st id = (st, { status := 404, body := .errText "Mandate not found" }) ∧
    handleSetActive st id = (st, { status := 404, body := .errText "Mandate not found" }) := by
  refine ⟨?_, ?_, ?_⟩
  · simp [handleUpdate, notMem_firstMatch_id h]
  · simp [handleDelete, notMem_findIdxJS_id h]
  · simp [handleSetActive, notMem_firstMatch_id h]

/-- Witness for C9 at the empty store and id "x". -/
theorem c9_not_found_handlers_witness :
    handleDelete mInit "x" = (mInit, { status := 404, body := .errText "Mandate not found" }) ∧
    handleUpdate mInit "x" ubEmpty "t0" =
      (mInit, { status := 404, body := .errText "Mandate not found" }) ∧
    handleSetActive mInit "x" = (mInit, { status := 404, body := .errText "Mandate not found" }) := by
  have h := c9_not_found_handlers mInit "x" ubEmpty "t0" (by decide)
  exact ⟨h.2.1, h.1, h.2.2⟩

/-- Claim C2 (amended): `handleCreate` responds 400 with error
"innovationTopic and name are required" iff `name` or `innovationTopic` is
absent *or empty* (JS falsiness); otherwise it appends exactly one mandate
whose `name` and `innovationTopic` equal the request values, whose
`clarificationAnswers` is the request value or `[]` when absent, whose
`refinementRules` is `[]` regardless of the body, whose `market`, `stage`
and `region` equal the request values except that empty strings are
normalized to absent, and returns that record with status 201. -/
theorem c2_handleCreate_spec (st : MState) (b : CreateBody) (newId now : String) :
    ((handleCreate st b newId now).2.status = 400 ↔
      (jsFalsyStr b.name = true ∨ jsFalsyStr b.innovationTopic = true)) ∧
    ((jsFalsyStr b.name = true ∨ jsFalsyStr b.innovationTopic = true) →
      handleCreate st b newId now =
        (st, { status := 400, body := .errText "innovationTopic and name are required" })) ∧
    (∀ nm topic, b.name = some nm → nm ≠ "" → b.innovationTopic = some topic → topic ≠ "" →
      ∃ m : Mandate,
        handleCreate st b newId now =
          ({ store := st.store ++ [m],
             active := if b.setAsActive ∨ (st.store ++ [m]).length = 1
                       then some m.id else st.active },
           { status := 201, body := .mandateBody m }) ∧
        m.id = newId ∧ m.name = nm ∧ m.innovationTopic = topic ∧
        m.clarificationAnswers = b.clarificationAnswers.getD [] ∧
        m.refinementRules = [] ∧
        m.market = jsOrUndefined b.market ∧ m.stage = jsOrUndefined b.stage ∧
        m.region = jsOrUndefined b.region) := by
  by_cases hf : (jsFalsyStr b.innovationTopic || jsFalsyStr b.name) = true
  · have hcase : handleCreate st b newId now =
        (st, { status := 400, body := .errText "innovationTopic and name are required" }) := by
      simp [handleCreate, hf]
    rw [Bool.or_eq_true] at hf
    refine ⟨by simp [hcase, hf.symm, Or.comm], fun _ => hcase, ?_⟩
    intro nm topic hnm hnmne htopic htopicne
    exfalso
    rcases hf with hf | hf
    · rw [htopic] at hf
      exact htopicne (by simpa [jsFalsyStr] using hf)
    · rw [hnm] at hf
      exact hnmne (by simpa [jsFalsyStr] using hf)
  · have hcase := hf
    rw [Bool.or_eq_true, not_or] at hf
    have h201 : (handleCreate st b newId now).2.status = 201 := by
      simp [handleCreate, hcase]
    refine ⟨?_, ?_, ?_⟩
    · rw [h201]
      constructor
      · intro h
        exact absurd h (by decide)
      · intro h
        rcases h with h | h
        · exact absurd h hf.2
        · exact absurd h hf.1
    · intro hor
      rcases hor with h | h
      · exact absurd h hf.2
      · exact absurd h hf.1
    · intro nm topic hnm hnmne htopic htopicne
      refine ⟨mkMandate b newId now, ?_, rfl, ?_, ?_, rfl, rfl, rfl, rfl, rfl⟩
      · simp [handleCreate, hcase]
      · show b.name.getD "" = nm
        rw [hnm]
        rfl
      · show b.innovationTopic.getD "" = topic
        rw [htopic]
        rfl

/-- Counterexample to claim C2 as stated: a body whose `name` is present
(the empty string) and whose `innovationTopic` is present still gets a 400,
although the body lacks neither field. -/
theorem c2_handleCreate_counterexample :
    (handleCreate mInit cbEmptyName "id-1" "t0").2 =
      { status := 400, body := .errText "innovationTopic and name are required" } ∧
    cbEmptyName.name = some "" ∧
    cbEmptyName.innovationTopic = some "carbon capture" := by
  exact ⟨rfl, rfl, rfl⟩

/-- Witness for C2 (amended) at a valid create body. -/
theorem c2_handleCreate_spec_witness :
    (handleCreate mInit cbValid "id-1" "t0").2.status = 201 ∧
    (handleCreate mInit cbValid "id-1" "t0").1.store.length = 1 := by
  obtain ⟨m, hm, -, -, -, -, -, -, -, -⟩ :=
    (c2_handleCreate_spec mInit cbValid "id-1" "t0").2.2 "Mandate A" "carbon capture"
      rfl (by decide) rfl (by decide)
  rw [hm]
  exact ⟨rfl, rfl⟩

/-! ### The active-mandate invariant (C8) -/

theorem applyUpdate_id (b : UpdateBody) (now : String) (m : Mandate) :
    (applyUpdate b now m).id = m.id := rfl

theorem mutateFirst_map_id (p : Mandate → Bool) (b : UpdateBody) (now : String)
    (l : List Mandate) :
    (mutateFirst p (applyUpdate b now) l).map Mandate.id = l.map Mandate.id := by
  induction l with
  | nil => rfl
  | cons a as ih =>
    simp only [mutateFirst]
    by_cases hp : p a
    · simp [hp, applyUpdate_id]
    · simp [hp, ih]

theorem spliceOne_map_mem {l : List Mandate} {idx : Nat} {qid j : String}
    (hidx : findIdxJS (fun m => m.id == qid) l = some idx)
    (hj : j ∈ l.map Mandate.id) (hne : j ≠ qid) :
    j ∈ (spliceOne l idx).map Mandate.id := by
  induction l generalizing idx with
  | nil => simp [findIdxJS] at hidx
  | cons a as ih =>
    simp only [findIdxJS] at hidx
    by_cases hp : (a.id == qid) = true
    · rw [if_pos hp] at hidx
      obtain rfl : idx = 0 := (Option.some_inj.mp hidx).symm
      have haq : a.id = qid := beq_iff_eq.mp hp
      simp only [List.map_cons, List.mem_cons] at hj
      rcases hj with hj | hj
      · exact absurd (hj.trans haq) hne
      · simpa [spliceOne] using hj
    · rw [if_neg hp] at hidx
      obtain ⟨k, hk, rfl⟩ := Option.map_eq_some'.mp hidx
      simp only [List.map_cons, List.mem_cons] at hj
      rcases hj with hj | hj
      · simp [spliceOne, hj]
      · simp only [spliceOne, List.map_cons, List.mem_cons]
        exact Or.inr (ih hk hj)

theorem mInv_mInit : mInv mInit :=
  ⟨by simp [mInit], fun i h => nomatch h⟩

theorem mkMandate_id (b : CreateBody) (newId now : String) :
    (mkMandate b newId now).id = newId := rfl

theorem mStep_preserves (st : MState) (op : MOp) (h : mInv st) : mInv (mStep st op).1 := by
  cases op with
  | create b newId now =>
    show mInv (handleCreate st b newId now).1
    by_cases hf : (jsFalsyStr b.innovationTopic || jsFalsyStr b.name) = true
    · simpa [handleCreate, hf] using h
    · simp only [handleCreate, if_neg hf]
      split
      · refine ⟨⟨fun hx => ?_, fun hx => ?_⟩, fun i hi => ?_⟩
        · replace hx : (some (mkMandate b newId now).id : Option String) = none := hx
          cases hx
        · replace hx : st.store ++ [mkMandate b newId now] = [] := hx
          exact absurd (List.append_eq_nil.mp hx).2 (List.cons_ne_nil _ _)
        · replace hi : (some (mkMandate b newId now).id : Option String) = some i := hi
          obtain rfl := Option.some_inj.mp hi
          show (mkMandate b newId now).id ∈ (st.store ++ [mkMandate b newId now]).map Mandate.id
          simp
      · rename_i hc
        have hlen : st.store.length + 1 ≠ 1 := fun hx => hc (Or.inr (by simpa using hx))
        have hne2 : st.store ≠ [] := fun hx => hlen (by simp [hx])
        cases hactv : st.active with
        | none => exact absurd (h.1.mp hactv) hne2
        | some j =>
          refine ⟨⟨fun hx => ?_, fun hx => ?_⟩, fun i hi => ?_⟩
          · replace hx : (some j : Option String) = none := hx
            cases hx
          · replace hx : st.store ++ [mkMandate b newId now] = [] := hx
            exact absurd (List.append_eq_nil.mp hx).2 (List.cons_ne_nil _ _)
          · replace hi : (some j : Option String) = some i := hi
            obtain rfl := Option.some_inj.mp hi
            have hmm := h.2 j hactv
            show j ∈ (st.store ++ [mkMandate b newId now]).map Mandate.id
            simp only [List.map_append, List.mem_append]
            exact Or.inl hmm
  | update id b now =>
    show mInv (handleUpdate st id b now).1
    cases hm : firstMatch (fun m => m.id == id) st.store with
    | none => simpa [handleUpdate, hm] using h
    | some m =>
      simp only [handleUpdate, hm]
      have hmap := mutateFirst_map_id (fun m => m.id == id) b now st.store
      refine ⟨⟨fun hx => ?_, fun hx => ?_⟩, fun i hi => ?_⟩
      · replace hx : st.active = none := hx
        have hst := h.1.mp hx
        show mutateFirst (fun m => m.id == id) (applyUpdate b now) st.store = []
        rw [hst]
        rfl
      · replace hx : mutateFirst (fun m => m.id == id) (applyUpdate b now) st.store = [] := hx
        have : st.store.map Mandate.id = [] := by
          rw [← hmap, hx]
          rfl
        exact h.1.mpr (List.map_eq_nil_iff.mp this)
      · replace hi : st.active = some i := hi
        show i ∈ (mutateFirst (fun m => m.id == id) (applyUpdate b now) st.store).map Mandate.id
        rw [hmap]
        exact h.2 i hi
  | del id =>
    show mInv (handleDelete st id).1
    cases hidx : findIdxJS (fun m => m.id == id) st.store with
    | none => simpa [handleDelete, hidx] using h
    | some idx =>
      simp only [handleDelete, hidx]
      have hstne : st.store ≠ [] := by
        intro hx
        rw [hx] at hidx
        cases hidx
      by_cases hact : st.active = some id
      · rw [if_pos hact]
        cases hh : (spliceOne st.store idx).head? with
        | none =>
          have hnil : spliceOne st.store idx = [] := List.head?_eq_none_iff.mp hh
          refine ⟨⟨fun _ => hnil, fun _ => rfl⟩, fun i hi => ?_⟩
          · replace hi : (none : Option String) = some i := hi
            cases hi
        | some m0 =>
          have hmem : m0 ∈ spliceOne st.store idx := by
            cases hsp : spliceOne st.store idx with
            | nil =>
              rw [hsp] at hh
              cases hh
            | cons x xs =>
              rw [hsp] at hh
              obtain rfl := Option.some_inj.mp hh
              exact List.mem_cons_self _ _
          refine ⟨⟨fun hx => ?_, fun hx => ?_⟩, fun i hi => ?_⟩
          · replace hx : (some m0.id : Option String) = none := hx
            cases hx
          · replace hx : spliceOne st.store idx = [] := hx
            rw [hx] at hmem
            cases hmem
          · replace hi : (some m0.id : Option String) = some i := hi
            obtain rfl := Option.some_inj.mp hi
            exact List.mem_map.mpr ⟨m0, hmem, rfl⟩
      · rw [if_neg hact]
        cases hactv : st.active with
        | none => exact absurd (h.1.mp hactv) hstne
        | some j =>
          have hjne : j ≠ id := by
            intro hx
            exact hact (hactv.trans (by rw [hx]))
          have hjmem : j ∈ (spliceOne st.store idx).map Mandate.id :=
            spliceOne_map_mem hidx (h.2 j hactv) hjne
          refine ⟨⟨fun hx => ?_, fun hx => ?_⟩, fun i hi => ?_⟩
          · replace hx : (some j : Option String) = none := hx
            cases hx
          · replace hx : spliceOne st.store idx = [] := hx
            rw [hx] at hjmem
            cases hjmem
          · replace hi : (some j : Option String) = some i := hi
            obtain rfl := Option.some_inj.mp hi
            exact hjmem
  | setActive mid =>
    show mInv (handleSetActive st mid).1
    cases hm : firstMatch (fun m => m.id == mid) st.store with
    | none => simpa [handleSetActive, hm] using h
    | some m =>
      simp only [handleSetActive, hm]
      obtain ⟨hmem, hpm⟩ := firstMatch_some hm
      have hid : m.id = mid := beq_iff_eq.mp hpm
      refine ⟨⟨fun hx => ?_, fun hx => ?_⟩, fun i hi => ?_⟩
      · replace hx : (some mid : Option String) = none := hx
        cases hx
      · replace hx : st.store = [] := hx
        rw [hx] at hmem
        cases hmem
      · replace hi : (some mid : Option String) = some i := hi
        obtain rfl := Option.some_inj.mp hi
        exact List.mem_map.mpr ⟨m, hmem, hid⟩

/-- Claim C8: starting from the empty store with no active mandate, after
any sequence of create / update / delete / set-active operations the active
mandate id is `none` iff the store is empty, and when it is `some i` then
`i` is the id of a mandate currently in the store. -/
theorem c8_active_invariant (ops : List MOp) : mInv (mRun ops) := by
  have key : ∀ (ops2 : List MOp) (st : MState), mInv st →
      mInv (ops2.foldl (fun s op => (mStep s op).1) st) := by
    intro ops2
    induction ops2 with
    | nil => exact fun st hst => hst
    | cons op rest ih => exact fun st hst => ih _ (mStep_preserves st op hst)
  exact key ops mInit mInv_mInit

/-! ### The `/api/gemini-search` handler (C5) -/

/-- Claim C5: the handler responds 405 "Method not allowed" to every
non-POST request; 400 "Missing 'query' in request body" when the query is
absent, empty or whitespace-only, without any model call (empty prompt
trace); and otherwise 200 carrying the `startups` and `help` payload, or
500 with an error message when the search throws. -/
theorem c5_gemini_search_handler (env : GSEnv) (method : String) (body : GSBody) :
    (method ≠ "POST" →
      gsHandler env method body = ({ status := 405, body := .errMsg "Method not allowed" }, [])) ∧
    (method = "POST" →
      (body.query = none ∨ (∃ q, body.query = some q ∧ (q = "" ∨ jsTrim q = ""))) →
      gsHandler env method body =
        ({ status := 400, body := .errMsg "Missing 'query' in request body" }, [])) ∧
    (∀ q res tr, method = "POST" → body.query = some q → q ≠ "" → jsTrim q ≠ "" →
      findStartupsWithGemini env q body.context
        { market := body.market, stage := body.stage, region := body.region } = (.ok res, tr) →
      gsHandler env method body = ({ status := 200, body := .payload res.1 res.2 }, tr)) ∧
    (∀ q e tr, method = "POST" → body.query = some q → q ≠ "" → jsTrim q ≠ "" →
      findStartupsWithGemini env q body.context
        { market := body.market, stage := body.stage, region := body.region } = (.error e, tr) →
      gsHandler env method body =
        ({ status := 500, body := .errMsg (strOr e.message "Internal server error") }, tr)) := by
  refine ⟨?_, ?_, ?_, ?_⟩
  · intro hm
    simp [gsHandler, hm]
  · intro hm hq
    subst hm
    rcases hq with hq | ⟨q, hq, hq2⟩
    · simp [gsHandler, hq]
    · rcases hq2 with hq2 | hq2 <;> simp [gsHandler, hq, hq2]
  · intro q res tr hm hq hq1 hq2 hcall
    subst hm
    simp [gsHandler, hq, hq1, hq2, hcall]
  · intro q e tr hm hq hq1 hq2 hcall
    subst hm
    simp [gsHandler, hq, hq1, hq2, hcall]

/-- Witness for C5: concrete 405 / 400 / 200 / 500 responses. -/
theorem c5_gemini_search_handler_witness :
    gsHandler gsEnvNoKey "GET" gsBodyQ =
      ({ status := 405, body := .errMsg "Method not allowed" }, []) ∧
    gsHandler gsEnvMerge "POST" gsBodyBlank =
      ({ status := 400, body := .errMsg "Missing 'query' in request body" }, []) ∧
    (gsHandler gsEnvMerge "POST" gsBodyQ).1.status = 200 ∧
    (gsHandler gsEnvNoKey "POST" gsBodyQ).1 =
      { status := 500, body := .errMsg gsApiKeyError.message } := by
  refine ⟨?_, ?_, ?_, ?_⟩
  · exact (c5_gemini_search_handler gsEnvNoKey "GET" gsBodyQ).1 (by decide)
  · exact (c5_gemini_search_handler gsEnvMerge "POST" gsBodyBlank).2.1 rfl
      (Or.inr ⟨"   ", rfl, Or.inr (by decide)⟩)
  · have h := (c5_gemini_search_handler gsEnvMerge "POST" gsBodyQ).2.2.1 "q"
      (normalizeStartups [rawBeta, rawAlpha],
        buildHelp "q" none mEmptyMeta false (normalizeStartups [rawBeta, rawAlpha]).length)
      [renderPrompt "q" none mEmptyMeta, renderPrompt "q" none mEmptyMeta ++ gsRetrySuffix]
      rfl rfl (by decide) (by decide) rfl
    rw [h]
  · have h := (c5_gemini_search_handler gsEnvNoKey "POST" gsBodyQ).2.2.2 "q"
      gsApiKeyError [] rfl rfl (by decide) (by decide) rfl
    rw [h]
    rfl

/-! ### Normalization and dedupe of `/api/gemini-search` results (C10) -/

theorem mapIdxFrom_length (f : Nat → α → β) (n : Nat) (l : List α) :
    (mapIdxFrom f n l).length = l.length := by
  induction l generalizing n with
  | nil => rfl
  | cons a as ih => simp [mapIdxFrom, ih]

theorem mapIdxFrom_get (f : Nat → α → β) (n : Nat) (l : List α) (i : Nat)
    (h1 : i < (mapIdxFrom f n l).length) (h2 : i < l.length) :
    (mapIdxFrom f n l).get ⟨i, h1⟩ = f (n + i) (l.get ⟨i, h2⟩) := by
  induction l generalizing n i with
  | nil => simp at h2
  | cons a as ih =>
    cases i with
    | zero => simp [mapIdxFrom]
    | succ k =>
      have harith : n + 1 + k = n + (k + 1) := by omega
      show (mapIdxFrom f (n + 1) as).get ⟨k, _⟩ = f (n + (k + 1)) (as.get ⟨k, _⟩)
      rw [ih (n + 1) k _ (by simpa using h2), harith]

theorem mem_dedupeByKey {l : List RawCandidate} {seen : List String} {c : RawCandidate}
    (h : c ∈ dedupeByKey l seen) :
    jsKey c ≠ "" ∧ seen.contains (jsKey c) = false := by
  induction l generalizing seen with
  | nil => cases h
  | cons a as ih =>
    simp only [dedupeByKey] at h
    by_cases h1 : jsKey a = ""
    · rw [if_pos h1] at h
      exact ih h
    · rw [if_neg h1] at h
      by_cases h2 : seen.contains (jsKey a) = true
      · rw [if_pos h2] at h
        exact ih h
      · rw [if_neg h2] at h
        rcases List.mem_cons.mp h with rfl | hmem
        · exact ⟨h1, Bool.not_eq_true _ ▸ eq_false_of_ne_true h2⟩
        · have hh := ih hmem
          refine ⟨hh.1, ?_⟩
          have h3 := hh.2
          simp only [List.contains_cons, Bool.or_eq_false_iff] at h3
          exact h3.2

theorem dedupeByKey_pairwise (l : List RawCandidate) (seen : List String) :
    (dedupeByKey l seen).Pairwise (fun a b => jsKey a ≠ jsKey b) := by
  induction l generalizing seen with
  | nil => exact List.Pairwise.nil
  | cons a as ih =>
    simp only [dedupeByKey]
    by_cases h1 : jsKey a = ""
    · rw [if_pos h1]
      exact ih seen
    · rw [if_neg h1]
      by_cases h2 : seen.contains (jsKey a) = true
      · rw [if_pos h2]
        exact ih seen
      · rw [if_neg h2]
        refine List.Pairwise.cons ?_ (ih _)
        intro b hb
        have h3 := (mem_dedupeByKey hb).2
        simp only [List.contains_cons, Bool.or_eq_false_iff, beq_eq_false_iff_ne] at h3
        exact fun he => h3.1 he.symm

/-- Claim C10: every startup returned by the server search has id
`gemini-<index>` with the index equal to its position, and name / url /
description defaulting to "Unknown Name" / "" / "No description available."
when absent; and when the retry merge runs, the final candidate list has
pairwise-distinct lower-cased url-or-name keys and drops every candidate
with neither url nor name. -/
theorem c10_gemini_search_normalization (env : GSEnv) (query : String)
    (context : Option String) (m : MetaInfo) (lst : List RawCandidate)
    (hasExact merged : Bool) (tr : List String)
    (h : gsFinalRaw env query context m = (.ok (lst, hasExact, merged), tr)) :
    (findStartupsWithGemini env query context m).1 =
      .ok (normalizeStartups lst,
           buildHelp query context m hasExact (normalizeStartups lst).length) ∧
    (∀ i (hi : i < (normalizeStartups lst).length) (hj : i < lst.length),
      ((normalizeStartups lst).get ⟨i, hi⟩).id = "gemini-" ++ toString i ∧
      ((lst.get ⟨i, hj⟩).name = none →
        ((normalizeStartups lst).get ⟨i, hi⟩).name = "Unknown Name") ∧
      ((lst.get ⟨i, hj⟩).url = none →
        ((normalizeStartups lst).get ⟨i, hi⟩).url = "") ∧
      ((lst.get ⟨i, hj⟩).description = none →
        ((normalizeStartups lst).get ⟨i, hi⟩).description = "No description available.")) ∧
    (merged = true →
      lst.Pairwise (fun a b => jsKey a ≠ jsKey b) ∧ ∀ c ∈ lst, jsKey c ≠ "") := by
  refine ⟨?_, ?_, ?_⟩
  · simp [findStartupsWithGemini, h]
  · intro i hi hj
    have hg := mapIdxFrom_get (normalizeWith "gemini-") 0 lst i hi hj
    have hz : (0 : Nat) + i = i := Nat.zero_add i
    rw [hz] at hg
    show ((normalizeStartups lst).get ⟨i, hi⟩).id = "gemini-" ++ toString i ∧ _ ∧ _ ∧ _
    rw [show (normalizeStartups lst).get ⟨i, hi⟩ = normalizeWith "gemini-" i (lst.get ⟨i, hj⟩) from hg]
    refine ⟨rfl, ?_, ?_, ?_⟩
    · intro hnone
      simp only [List.get_eq_getElem] at hnone
      simp [normalizeWith, truthyOr, hnone]
    · intro hnone
      simp only [List.get_eq_getElem] at hnone
      simp [normalizeWith, truthyOr, hnone]
    · intro hnone
      simp only [List.get_eq_getElem] at hnone
      simp [normalizeWith, truthyOr, hnone]
  · intro hm
    rw [gsFinalRaw] at h
    split at h
    · cases h
    · dsimp only at h
      split at h
      · cases h
      · split at h
        · simp only [Prod.mk.injEq, Except.ok.injEq] at h
          obtain ⟨⟨-, -, h3⟩, -⟩ := h
          rw [hm] at h3
          cases h3
        · split at h
          · cases h
          · split at h
            · simp only [Prod.mk.injEq, Except.ok.injEq] at h
              obtain ⟨⟨-, -, h3⟩, -⟩ := h
              rw [hm] at h3
              cases h3
            · simp only [Prod.mk.injEq, Except.ok.injEq] at h
              obtain ⟨⟨h1, -, -⟩, -⟩ := h
              rw [← h1]
              exact ⟨dedupeByKey_pairwise _ _, fun c hc => (mem_dedupeByKey hc).1⟩

/-- Witness for C10 at the concrete merge environment. -/
theorem c10_gemini_search_normalization_witness :
    (findStartupsWithGemini gsEnvMerge "q" none mEmptyMeta).1 =
      .ok (normalizeStartups [rawBeta, rawAlpha],
           buildHelp "q" none mEmptyMeta false (normalizeStartups [rawBeta, rawAlpha]).length) ∧
    ((normalizeStartups [rawBeta, rawAlpha]).get ⟨0, by decide⟩).id = "gemini-0" ∧
    List.Pairwise (fun a b => jsKey a ≠ jsKey b) [rawBeta, rawAlpha] := by
  have h := c10_gemini_search_normalization gsEnvMerge "q" none mEmptyMeta
    [rawBeta, rawAlpha] false true
    [renderPrompt "q" none mEmptyMeta, renderPrompt "q" none mEmptyMeta ++ gsRetrySuffix] rfl
  exact ⟨h.1, (h.2.1 0 (by decide) (by decide)).1, (h.2.2 rfl).1⟩

/-! ### Retry prompts (C6) and the `findStartups` fallback (C1) -/

theorem append_ne_of_suffix_length {s t : String} (a : String) (h : s.length ≠ t.length) :
    a ++ s ≠ a ++ t := by
  intro he
  apply h
  have h2 := congrArg String.length he
  rw [String.length_append, String.length_append] at h2
  omega

theorem self_ne_append {x s : String} (h : 0 < s.length) : x ≠ x ++ s := by
  intro he
  have h2 := congrArg String.length he
  rw [String.length_append] at h2
  omega

/-- The fallback pass always sends exactly the internal-knowledge prompt. -/
theorem findStartupsFallbackRun_trace (env : FrontEnv) (q : String) (n : Nat) :
    (findStartupsFallbackRun env q n).2 = [findStartupsPromptTwo q] := by
  unfold findStartupsFallbackRun
  dsimp only
  rcases hE : executeGenAI env (findStartupsPromptTwo q) n with ⟨r2, trb, nb⟩
  cases r2 with
  | ok t =>
    dsimp only
    cases env.jparse (cleanJson (jsOrEmptyObj t)) <;> rfl
  | error e => rfl

/-- If the fallback model call throws, the fallback pass throws that error. -/
theorem findStartupsFallbackRun_fst_error (env : FrontEnv) (q : String) (n : Nat)
    (e2 : GenError) (h : (executeGenAI env (findStartupsPromptTwo q) n).1 = .error e2) :
    (findStartupsFallbackRun env q n).1 = .error e2 := by
  unfold findStartupsFallbackRun
  dsimp only
  rcases hE : executeGenAI env (findStartupsPromptTwo q) n with ⟨r2, trb, nb⟩
  rw [hE] at h
  replace h : r2 = .error e2 := h
  subst h
  rfl

/-- Counterexample to claim C6 as stated: with the AI Studio hook present,
`executeGenAI` retries a failed (authentication-error) model call with the
*same* prompt — the two calls of the retry pair carry identical prompts. -/
theorem c6_counterexample :
    feAuthRetryEnv.oracle 0 = .err eAuth403 ∧
    isAuthError eAuth403 = true ∧
    (executeGenAI feAuthRetryEnv "p" 0).2.1 = ["p", "p"] ∧
    (executeGenAI feAuthRetryEnv "p" 0).1 = .error eAuth403 := by
  refine ⟨rfl, by decide, rfl, rfl⟩

set_option maxRecDepth 8000 in
/-- Claim C6 (amended): whenever an operation-level retry issues a second
model call — the `findStartups` internal-knowledge fallback, the
`evaluateStartup` fallback, or the gemini-search retry pass — the second
call's prompt differs from the first call's prompt; the auth-error retry
inside `executeGenAI`, by contrast, re-issues the identical prompt. -/
theorem c6_retry_prompts (env : FrontEnv) (p query : String) (n : Nat)
    (c : Startup) (ctx : List Answer) (refs : List String) (hasFile : Bool)
    (genv : GSEnv) (gq : String) (gc : Option String) (gm : MetaInfo) :
    ((executeGenAI env p n).2.1 = [p] ∨ (executeGenAI env p n).2.1 = [p, p]) ∧
    findStartupsPromptOne query ≠ findStartupsPromptTwo query ∧
    ((findStartups env query).2 = [findStartupsPromptOne query] ∨
      (findStartups env query).2 =
        [findStartupsPromptOne query, findStartupsPromptTwo query]) ∧
    evalPromptText c ctx refs hasFile ≠
      evalPromptText c ctx refs hasFile ++ evalFallbackSuffix ∧
    ((gsFinalRaw genv gq gc gm).2 = [] ∨
      (gsFinalRaw genv gq gc gm).2 = [renderPrompt gq gc gm] ∨
      (gsFinalRaw genv gq gc gm).2 =
        [renderPrompt gq gc gm, renderPrompt gq gc gm ++ gsRetrySuffix]) ∧
    renderPrompt gq gc gm ≠ renderPrompt gq gc gm ++ gsRetrySuffix := by
  refine ⟨?_, ?_, ?_, ?_, ?_, ?_⟩
  · unfold executeGenAI
    rcases hE : env.oracle n with t | e
    · exact Or.inl rfl
    · dsimp only
      by_cases h1 : (isAuthError e && env.aistudioAvailable) = true
      · rw [if_pos h1]
        by_cases h2 : env.keySelectOk = true
        · rw [if_pos h2]
          rcases env.oracle (n + 1) with t | e2
          · exact Or.inr rfl
          · exact Or.inr rfl
        · rw [if_neg h2]
          exact Or.inl rfl
      · rw [if_neg h1]
        exact Or.inl rfl
  · exact append_ne_of_suffix_length (findStartupsBasePrompt query) (by decide)
  · unfold findStartups
    dsimp only
    rcases hE : executeGenAI env (findStartupsPromptOne query) 0 with ⟨r1, tr0, n1⟩
    cases r1 with
    | ok t =>
      dsimp only
      by_cases hje : cleanJson (jsOrEmptyObj t) = "" ∨ cleanJson (jsOrEmptyObj t) = emptyObjText
      · rw [if_pos hje, if_neg (by decide : ¬ (isAuthError emptySearchError = true))]
        exact Or.inr (by rw [findStartupsFallbackRun_trace])
      · rw [if_neg hje]
        rcases env.jparse (cleanJson (jsOrEmptyObj t)) with e | lst
        · dsimp only
          by_cases hap : isAuthError e = true
          · rw [if_pos hap]
            exact Or.inl rfl
          · rw [if_neg hap]
            exact Or.inr (by rw [findStartupsFallbackRun_trace])
        · exact Or.inl rfl
    | error e =>
      dsimp only
      by_cases hap : isAuthError e = true
      · rw [if_pos hap]
        exact Or.inl rfl
      · rw [if_neg hap]
        exact Or.inr (by rw [findStartupsFallbackRun_trace])
  · exact self_ne_append (by decide)
  · unfold gsFinalRaw
    by_cases hk : genv.apiKeyPresent = true
    · rw [if_neg (by simpa using hk)]
      dsimp only
      rcases callGemini genv (renderPrompt gq gc gm) 0 with ⟨r1, n1⟩
      rcases r1 with e | firstJson
      · exact Or.inr (Or.inl rfl)
      · dsimp only
        by_cases hex : gsHasExact gq ((((genv.jparse firstJson).getD
            { startups := some [] }).startups).getD []) = true
        · rw [if_pos hex]
          exact Or.inr (Or.inl rfl)
        · rw [if_neg hex]
          rcases callGemini genv (renderPrompt gq gc gm ++ gsRetrySuffix) n1 with ⟨r2, n2⟩
          rcases r2 with e | retryJson
          · exact Or.inr (Or.inr rfl)
          · dsimp only
            rcases genv.jparse retryJson with _ | rp
            · exact Or.inr (Or.inr rfl)
            · exact Or.inr (Or.inr rfl)
    · rw [if_pos (by simpa using hk)]
      exact Or.inl rfl
  · exact self_ne_append (by decide)

/-- Witness for C6 (amended) at concrete prompts. -/
theorem c6_retry_prompts_witness :
    findStartupsPromptOne "q" ≠ findStartupsPromptTwo "q" ∧
    renderPrompt "q" none mEmptyMeta ≠ renderPrompt "q" none mEmptyMeta ++ gsRetrySuffix := by
  have h := c6_retry_prompts feTwoFail "p" "q" 0
    { id := "id", name := "n", url := "", description := "d" } [] [] false
    gsEnvMerge "q" none mEmptyMeta
  exact ⟨h.2.1, h.2.2.2.2.2⟩

/-- Claim C1: in `findStartups`, a non-auth failure of the initial model
call, or an empty cleaned search result, leads to exactly one additional
`executeGenAI` invocation whose prompt is the base prompt extended with the
internal-knowledge instruction (hence different from the first prompt); an
auth error from the initial call is rethrown with no second invocation; and
when the fallback call itself throws, its error is thrown to the caller. -/
theorem c1_findStartups_retry (env : FrontEnv) (query : String) :
    (findStartupsPromptTwo query =
        findStartupsBasePrompt query ++ findStartupsFallbackSuffix ∧
      findStartupsPromptOne query ≠ findStartupsPromptTwo query) ∧
    (∀ e, (executeGenAI env (findStartupsPromptOne query) 0).1 = .error e →
      ((isAuthError e = false →
        (findStartups env query).2 =
          [findStartupsPromptOne query, findStartupsPromptTwo query]) ∧
       (isAuthError e = true →
        findStartups env query = (.error e, [findStartupsPromptOne query])))) ∧
    (∀ t, (executeGenAI env (findStartupsPromptOne query) 0).1 = .ok t →
      (cleanJson (jsOrEmptyObj t) = "" ∨ cleanJson (jsOrEmptyObj t) = emptyObjText) →
      (findStartups env query).2 =
        [findStartupsPromptOne query, findStartupsPromptTwo query]) ∧
    (∀ e2, (findStartups env query).2 =
        [findStartupsPromptOne query, findStartupsPromptTwo query] →
      (executeGenAI env (findStartupsPromptTwo query)
        (executeGenAI env (findStartupsPromptOne query) 0).2.2).1 = .error e2 →
      (findStartups env query).1 = .error e2) := by
  refine ⟨⟨rfl, append_ne_of_suffix_length (findStartupsBasePrompt query) (by decide)⟩,
    ?_, ?_, ?_⟩
  · intro e he
    rcases hE : executeGenAI env (findStartupsPromptOne query) 0 with ⟨r1, tr0, n1⟩
    rw [hE] at he
    replace he : r1 = .error e := he
    subst he
    constructor
    · intro hauth
      unfold findStartups
      dsimp only
      rw [hE]
      dsimp only
      rw [if_neg (by simp [hauth])]
      rw [findStartupsFallbackRun_trace]
    · intro hauth
      unfold findStartups
      dsimp only
      rw [hE]
      dsimp only
      rw [if_pos hauth]
  · intro t ht hempty
    rcases hE : executeGenAI env (findStartupsPromptOne query) 0 with ⟨r1, tr0, n1⟩
    rw [hE] at ht
    replace ht : r1 = .ok t := ht
    subst ht
    unfold findStartups
    dsimp only
    rw [hE]
    dsimp only
    rw [if_pos hempty, if_neg (by decide : ¬ (isAuthError emptySearchError = true))]
    rw [findStartupsFallbackRun_trace]
  · intro e2 htr h2
    rcases hE : executeGenAI env (findStartupsPromptOne query) 0 with ⟨r1, tr0, n1⟩
    rw [hE] at h2
    replace h2 : (executeGenAI env (findStartupsPromptTwo query) n1).1 = .error e2 := h2
    unfold findStartups at htr ⊢
    dsimp only at htr ⊢
    rw [hE] at htr ⊢
    cases r1 with
    | ok t =>
      dsimp only at htr ⊢
      by_cases hje : cleanJson (jsOrEmptyObj t) = "" ∨ cleanJson (jsOrEmptyObj t) = emptyObjText
      · rw [if_pos hje, if_neg (by decide : ¬ (isAuthError emptySearchError = true))] at htr ⊢
        exact findStartupsFallbackRun_fst_error env query n1 e2 h2
      · rw [if_neg hje] at htr ⊢
        rcases hjp : env.jparse (cleanJson (jsOrEmptyObj t)) with e | lst
        · rw [hjp] at htr
          dsimp only at htr ⊢
          by_cases hap : isAuthError e = true
          · rw [if_pos hap] at htr
            replace htr : [findStartupsPromptOne query] =
              [findStartupsPromptOne query, findStartupsPromptTwo query] := htr
            simp at htr
          · rw [if_neg hap]
            exact findStartupsFallbackRun_fst_error env query n1 e2 h2
        · rw [hjp] at htr
          replace htr : [findStartupsPromptOne query] =
            [findStartupsPromptOne query, findStartupsPromptTwo query] := htr
          simp at htr
    | error e =>
      dsimp only at htr ⊢
      by_cases hap : isAuthError e = true
      · rw [if_pos hap] at htr
        replace htr : [findStartupsPromptOne query] =
          [findStartupsPromptOne query, findStartupsPromptTwo query] := htr
        simp at htr
      · rw [if_neg hap]
        exact findStartupsFallbackRun_fst_error env query n1 e2 h2

/-- Witness for C1: the non-auth two-failure run, the empty-result run, and
the auth-error run, at concrete environments. -/
theorem c1_findStartups_retry_witness :
    (findStartups feTwoFail "q").2 =
      [findStartupsPromptOne "q", findStartupsPromptTwo "q"] ∧
    (findStartups feTwoFail "q").1 = .error eNet2 ∧
    findStartups feAuthEnv "q" = (.error eAuth403, [findStartupsPromptOne "q"]) ∧
    (findStartups feEmptyEnv "q").2 =
      [findStartupsPromptOne "q", findStartupsPromptTwo "q"] := by
  have h1 := (c1_findStartups_retry feTwoFail "q").2.1 eNet rfl
  have htr := h1.1 (by decide)
  refine ⟨htr, ?_, ?_, ?_⟩
  · exact (c1_findStartups_retry feTwoFail "q").2.2.2 eNet2 htr rfl
  · exact ((c1_findStartups_retry feAuthEnv "q").2.1 eAuth403 rfl).2 (by decide)
  · exact (c1_findStartups_retry feEmptyEnv "q").2.2.1 "" rfl (Or.inr (by decide))

/-! ### `cleanJson` (C4) -/

theorem firstIdxChar_eq_none_iff (c : Char) (l : List Char) :
    firstIdxChar c l = none ↔ c ∉ l := by
  induction l with
  | nil => simp [firstIdxChar]
  | cons a as ih =>
    simp only [firstIdxChar, List.mem_cons]
    by_cases ha : a = c
    · simp [ha]
    · simp only [if_neg ha, Option.map_eq_none', ih]
      constructor
      · intro h hc
        rcases hc with hc | hc
        · exact ha hc.symm
        · exact h hc
      · intro h hc
        exact h (Or.inr hc)

theorem jsIndexOfChar_eq_neg1_iff (s : String) (c : Char) :
    jsIndexOfChar s c = -1 ↔ c ∉ s.data := by
  rw [← firstIdxChar_eq_none_iff c s.data]
  unfold jsIndexOfChar
  cases h : firstIdxChar c s.data with
  | none => simp
  | some i =>
    simp only []
    constructor
    · intro hx
      exact absurd hx (by omega)
    · intro hx
      cases hx

theorem jsIndexOfChar_nonneg_of_ne (s : String) (c : Char)
    (h : jsIndexOfChar s c ≠ -1) : 0 ≤ jsIndexOfChar s c := by
  unfold jsIndexOfChar at h ⊢
  cases hfi : firstIdxChar c s.data with
  | none => rw [hfi] at h; exact absurd rfl h
  | some i => simp

/-- Claim C4: `cleanJson` deletes every "```json" (case-insensitively) and
"```" and trims; then, when a '\x7b' occurs before any '[' (or no '['
occurs), it returns the substring from the first '\x7b' to the last '\x7d'
inclusive whenever that last '\x7d' is at or after the first '\x7b';
symmetrically for '[' … ']'; in every other case it returns the
fence-stripped trimmed string unchanged.  Index `-1` means the character
does not occur. -/
theorem c4_cleanJson_spec (text : String) :
    (text = "" → cleanJson text = "") ∧
    (text ≠ "" →
      (jsIndexOfChar (stripFences text) '\x7b' = -1 ↔ '\x7b' ∉ (stripFences text).data) ∧
      (jsIndexOfChar (stripFences text) '[' = -1 ↔ '[' ∉ (stripFences text).data) ∧
      ((jsIndexOfChar (stripFences text) '\x7b' ≠ -1 ∧
          (jsIndexOfChar (stripFences text) '[' = -1 ∨
            jsIndexOfChar (stripFences text) '\x7b' < jsIndexOfChar (stripFences text) '[')) →
        ((jsLastIndexOfChar (stripFences text) '\x7d' ≥ jsIndexOfChar (stripFences text) '\x7b' →
            cleanJson text =
              String.mk (((stripFences text).data.take
                ((jsLastIndexOfChar (stripFences text) '\x7d').toNat + 1)).drop
                (jsIndexOfChar (stripFences text) '\x7b').toNat)) ∧
          (jsLastIndexOfChar (stripFences text) '\x7d' < jsIndexOfChar (stripFences text) '\x7b' →
            cleanJson text = stripFences text))) ∧
      (¬ (jsIndexOfChar (stripFences text) '\x7b' ≠ -1 ∧
          (jsIndexOfChar (stripFences text) '[' = -1 ∨
            jsIndexOfChar (stripFences text) '\x7b' < jsIndexOfChar (stripFences text) '[')) →
        jsIndexOfChar (stripFences text) '[' ≠ -1 →
        ((jsLastIndexOfChar (stripFences text) ']' ≥ jsIndexOfChar (stripFences text) '[' →
            cleanJson text =
              String.mk (((stripFences text).data.take
                ((jsLastIndexOfChar (stripFences text) ']').toNat + 1)).drop
                (jsIndexOfChar (stripFences text) '[').toNat)) ∧
          (jsLastIndexOfChar (stripFences text) ']' < jsIndexOfChar (stripFences text) '[' →
            cleanJson text = stripFences text))) ∧
      (jsIndexOfChar (stripFences text) '\x7b' = -1 →
        jsIndexOfChar (stripFences text) '[' = -1 →
        cleanJson text = stripFences text)) := by
  constructor
  · intro h
    simp [cleanJson, h]
  · intro hne
    refine ⟨jsIndexOfChar_eq_neg1_iff _ _, jsIndexOfChar_eq_neg1_iff _ _, ?_, ?_, ?_⟩
    · intro hcond
      have hfb0 : 0 ≤ jsIndexOfChar (stripFences text) '\x7b' :=
        jsIndexOfChar_nonneg_of_ne _ _ hcond.1
      constructor
      · intro hge
        have hlbne : jsLastIndexOfChar (stripFences text) '\x7d' ≠ -1 := by omega
        unfold cleanJson
        rw [if_neg hne]
        dsimp only
        rw [if_pos hcond]
        dsimp only
        rw [if_pos ⟨hcond.1, hlbne, hge⟩]
        rfl
      · intro hlt
        unfold cleanJson
        rw [if_neg hne]
        dsimp only
        rw [if_pos hcond]
        dsimp only
        rw [if_neg]
        intro hcl
        omega
    · intro hncond hfk
      have hfk0 : 0 ≤ jsIndexOfChar (stripFences text) '[' :=
        jsIndexOfChar_nonneg_of_ne _ _ hfk
      constructor
      · intro hge
        have hlkne : jsLastIndexOfChar (stripFences text) ']' ≠ -1 := by omega
        unfold cleanJson
        rw [if_neg hne]
        dsimp only
        rw [if_neg hncond, if_pos hfk]
        dsimp only
        rw [if_pos ⟨hfk, hlkne, hge⟩]
        rfl
      · intro hlt
        unfold cleanJson
        rw [if_neg hne]
        dsimp only
        rw [if_neg hncond, if_pos hfk]
        dsimp only
        rw [if_neg]
        intro hcl
        omega
    · intro hfb hfk
      have h1 : ¬ (jsIndexOfChar (stripFences text) '\x7b' ≠ -1 ∧
          (jsIndexOfChar (stripFences text) '[' = -1 ∨
            jsIndexOfChar (stripFences text) '\x7b' < jsIndexOfChar (stripFences text) '[')) :=
        fun hcl => hcl.1 hfb
      have h2 : ¬ (jsIndexOfChar (stripFences text) '[' ≠ -1) := fun hcl => hcl hfk
      unfold cleanJson
      rw [if_neg hne]
      dsimp only
      rw [if_neg h1, if_neg h2]
      dsimp only
      rw [if_neg (by intro hcl; exact hcl.1 rfl)]

/-- Witness for C4: a brace extraction and a bracket extraction at concrete
strings. -/
theorem c4_cleanJson_spec_witness :
    cleanJson "x\x7by\x7dz" = "\x7by\x7d" ∧
    cleanJson "a [1, 2] b" = "[1, 2]" := by
  constructor
  · have h := (((c4_cleanJson_spec "x\x7by\x7dz").2 (by decide)).2.2.1
      ⟨by decide, Or.inl (by decide)⟩).1 (by decide)
    rw [h]
    decide
  · have h := (((c4_cleanJson_spec "a [1, 2] b").2 (by decide)).2.2.2.1
      (by decide) (by decide)).1 (by decide)
    rw [h]
    decide

end InnoScout
